import Mathlib

/-!
Verification of the `subrepo` tool (a git-subtree based multi-repository
manager) against its natural-language specification.

The Python sources under `src/subrepo/` are shallowly embedded below:
pure functions become Lean functions, stateful operations become explicit
state passing over environment records plus explicit traces of external
effects, and fallible constructors return `Option`/`Except`.  Python
string operations are modelled on `List Char` (Python strings are
sequences of unicode code points, as is `String.data`).
-/

namespace Subrepo

/-! ## Character and string helpers (models of Python `str` operations) -/

/-- Hexadecimal digit test, the character class `[0-9a-fA-F]`. -/
def isHexChar (c : Char) : Bool :=
  (('0' ≤ c) && (c ≤ '9')) || (('a' ≤ c) && (c ≤ 'f')) || (('A' ≤ c) && (c ≤ 'F'))

/-- Does the character list begin with two dots, i.e. with `".."`? -/
def twoDotsAhead : List Char → Bool
  | '.' :: '.' :: _ => true
  | _ => false

/-- Model of the Python substring test `".." in s` on the code points of `s`. -/
def hasDotDotChars : List Char → Bool
  | [] => false
  | c :: rest => twoDotsAhead (c :: rest) || hasDotDotChars rest

/-- Python `".." in s` for a string. -/
def strHasDotDot (s : String) : Bool :=
  hasDotDotChars s.data

/-- Python `s.startswith(t)` modelled as a code-point prefix test. -/
def pyStartsWith (s t : String) : Bool :=
  t.data.isPrefixOf s.data

/-- Python emptiness test on a string (`not s`). -/
def strIsEmpty (s : String) : Bool :=
  s.data.isEmpty

/-- Does the string start with the character `c`?  Used for the Python
    test `s.startswith("/")`. -/
def startsWithChar (s : String) (c : Char) : Bool :=
  match s.data with
  | [] => false
  | d :: _ => d == c

/-- Does the string end with the character `c`?  Used for the Python
    test `s.endswith("/")`. -/
def endsWithChar (s : String) (c : Char) : Bool :=
  match s.data.getLast? with
  | none => false
  | some d => d == c

/-- Python whitespace for `str.strip()` (ASCII fragment; the inputs we
    model are ASCII git output lines). -/
def isPySpace (c : Char) : Bool :=
  c == ' ' || c == '\t' || c == '\n' || c == '\r'

/-- Python `s.strip()` on code points. -/
def pyStripChars (cs : List Char) : List Char :=
  ((cs.dropWhile isPySpace).reverse.dropWhile isPySpace).reverse

/-- Python `s.strip()`. -/
def pyStrip (s : String) : String :=
  String.mk (pyStripChars s.data)

/-- Python `s.rstrip("/")`: remove every trailing slash. -/
def pyRstripSlash (s : String) : String :=
  String.mk ((s.data.reverse.dropWhile (fun c => c == '/')).reverse)

/-- Python `s[n:]` (character slicing). -/
def pyDrop (s : String) (n : Nat) : String :=
  String.mk (s.data.drop n)

/-- Python `len(s)` (number of code points). -/
def pyLen (s : String) : Nat :=
  s.data.length

/-- Split a character list on `'/'`, the model of `pathlib` path segments
    of a relative POSIX path string. -/
def splitSegs : List Char → List (List Char)
  | [] => [[]]
  | c :: t =>
    let r := splitSegs t
    if c == '/' then [] :: r
    else
      match r with
      | [] => [[c]]
      | h :: t2 => (c :: h) :: t2

/-- Path segments of a string path. -/
def pathSegs (s : String) : List (List Char) :=
  splitSegs s.data

/-- The segment `".."` as a character list. -/
def dotDotSeg : List Char := ['.', '.']

/-! ## `manifest_parser.is_commit_sha` (src/subrepo/manifest_parser.py)

The source compiles `SHA_PATTERN = re.compile(r"^[0-9a-fA-F]{40}$")` and
returns `bool(SHA_PATTERN.match(revision))`.  In Python, `$` matches at
the end of the string *or just before a newline at the end of the
string*, so the pattern also accepts forty hexadecimal characters
followed by one final `'\n'`. -/

/-- Model of `SHA_PATTERN.match(s)` succeeding: either the whole string
    is forty hexadecimal characters, or it is forty hexadecimal
    characters followed by a single trailing newline (Python `$`
    semantics). -/
def shaPatternMatch (cs : List Char) : Bool :=
  (cs.length == 40 && cs.all isHexChar) ||
  (cs.length == 41 && (cs.take 40).all isHexChar && cs.getLast? == some '\n')

/-- `is_commit_sha` from `manifest_parser.py`. -/
def is_commit_sha (s : String) : Bool :=
  shaPatternMatch s.data

/-- The specification's notion of a pinned commit: exactly forty
    characters, each in `[0-9a-fA-F]`.  (Spec-side predicate, used to
    state claims; compare with `is_commit_sha`, embedded from the code.) -/
def isHex40Spec (s : String) : Bool :=
  s.data.length == 40 && s.data.all isHexChar

/-! ## Data model (src/subrepo/models.py) -/

/-- `Copyfile` directive (validation in `__post_init__` is modelled
    separately by `Copyfile.post_init_ok`). -/
structure Copyfile where
  src : String
  dest : String
  deriving DecidableEq, Repr

/-- `Copyfile.__post_init__`: nonempty, no `".."` substring, no leading
    slash, in either field. -/
def Copyfile.post_init_ok (c : Copyfile) : Bool :=
  !(strIsEmpty c.src) && !(strIsEmpty c.dest) &&
  !(strHasDotDot c.src) && !(strHasDotDot c.dest) &&
  !(startsWithChar c.src '/') && !(startsWithChar c.dest '/')

/-- `Linkfile` directive. -/
structure Linkfile where
  src : String
  dest : String
  deriving DecidableEq, Repr

/-- `Remote` (the `name`/`fetch` validation of its `__post_init__` plays
    no role in the claims and is omitted). -/
structure Remote where
  name : String
  fetch : String
  push_url : Option String := none
  deriving DecidableEq, Repr

/-- `Project` from `models.py`.  `upstream` and `clone_depth` are carried
    for fidelity; `datetime` fields of other models are not needed. -/
structure Project where
  name : String
  path : String
  remote : String
  revision : String
  upstream : Option String := none
  clone_depth : Option Nat := none
  copyfiles : List Copyfile := []
  linkfiles : List Linkfile := []
  deriving DecidableEq, Repr

/-- `Project.__post_init__`: name, path, remote nonempty; path relative
    with no leading or trailing slash and no `".."` substring.  Note the
    revision is *not* validated (it may be empty). -/
def Project.post_init_ok (p : Project) : Bool :=
  !(strIsEmpty p.name) && !(strIsEmpty p.path) &&
  !(startsWithChar p.path '/') && !(endsWithChar p.path '/') &&
  !(strHasDotDot p.path) && !(strIsEmpty p.remote)

/-! ## Branch model (src/subrepo/git_commands.py, models.py) -/

/-- `BranchInfo` from `models.py`. -/
structure BranchInfo where
  current_branch : String
  is_default_branch : Bool
  default_branch : String
  target_branch : String
  deriving DecidableEq, Repr

/-- `BranchInfo.__post_init__`: the three branch names are nonempty and
    `is_default_branch` implies `current_branch == default_branch`. -/
def BranchInfo.post_init_ok (b : BranchInfo) : Bool :=
  !(strIsEmpty b.current_branch) && !(strIsEmpty b.default_branch) &&
  !(strIsEmpty b.target_branch) &&
  (!b.is_default_branch || (b.current_branch == b.default_branch))

/-- `extract_default_branch_from_project` from `manifest_parser.py`:
    `None` when the revision is classified as a commit SHA, otherwise the
    revision itself. -/
def extract_default_branch_from_project (project : Project) : Option String :=
  if is_commit_sha project.revision then none else some project.revision

/-- Python truthiness of an `Optional[str]`: `None` and `""` are falsy. -/
def optStrTruthy : Option String → Bool
  | none => false
  | some s => !(strIsEmpty s)

/-- `determine_target_branch` from `git_commands.py`.  On the default
    branch the source evaluates
    `manifest_default if manifest_default else branch_info.default_branch`,
    so an empty-string manifest revision (falsy in Python) also falls
    back to the git-detected default branch. -/
def determine_target_branch (branch_info : BranchInfo) (project : Project) : String :=
  if branch_info.is_default_branch then
    let manifest_default := extract_default_branch_from_project project
    if optStrTruthy manifest_default then manifest_default.getD branch_info.default_branch
    else branch_info.default_branch
  else branch_info.current_branch

/-- `create_branch_info` from `git_commands.py`, as a function of the two
    branch names detected by git (`detect_current_branch` and
    `detect_default_branch` are read-only queries, modelled as inputs). -/
def create_branch_info (current default : String) : BranchInfo :=
  let is_default := current == default
  { current_branch := current
    is_default_branch := is_default
    default_branch := default
    target_branch := if is_default then default else current }

/-! ## Manifest validation (src/subrepo/models.py `Manifest.__post_init__`,
src/subrepo/manifest_parser.py `validate_manifest`, `parse_manifest`)

Error messages are modelled as structured `Violation` values; each
constructor corresponds to one message format of the source. -/

/-- One semantic violation, as reported by manifest validation. -/
inductive Violation where
  | noRemotes
  | noProjects
  | defaultRemoteMissing (name : String)
  | danglingRemote (projectName remoteName : String)
  | duplicatePaths (paths : List String)
  | duplicatePath (path : String)
  | absolutePath (projectName path : String)
  | dotDotPath (projectName path : String)
  | projectInvalid (projectName : String)
  deriving DecidableEq, Repr

/-- `Manifest` from `models.py`.  The Python `dict[str, Remote]` is
    modelled as an association list in insertion order. -/
structure Manifest where
  remotes : List (String × Remote)
  projects : List Project
  default_remote : Option String := none
  default_revision : Option String := none
  deriving DecidableEq, Repr

/-- Membership test `name in self.remotes` on the remote dictionary. -/
def remoteDefined (remotes : List (String × Remote)) (name : String) : Bool :=
  remotes.any (fun r => r.1 == name)

/-- The `default_remote` clause of `Manifest.__post_init__`
    (`if self.default_remote and self.default_remote not in self.remotes`). -/
def checkDefaultRemote (m : Manifest) : Option Violation :=
  match m.default_remote with
  | none => none
  | some dr =>
    if !(strIsEmpty dr) && !(remoteDefined m.remotes dr) then
      some (.defaultRemoteMissing dr)
    else none

/-- The project-remote loop of `Manifest.__post_init__`: it raises at the
    FIRST project referencing an unknown remote. -/
def firstDanglingRemote (remotes : List (String × Remote)) : List Project → Option Violation
  | [] => none
  | p :: rest =>
    if !(remoteDefined remotes p.remote) then some (.danglingRemote p.name p.remote)
    else firstDanglingRemote remotes rest

/-- The unique-path clause of `Manifest.__post_init__`
    (`len(paths) != len(set(paths))`, reporting the set of duplicates). -/
def dupPathsCheck (projects : List Project) : Option Violation :=
  let paths := projects.map Project.path
  if paths.length != paths.eraseDups.length then
    some (.duplicatePaths (paths.filter (fun q => paths.count q > 1)).eraseDups)
  else none

/-- `Manifest.__post_init__`: returns the first violation found (the
    source raises a `ValueError` there), or `none` when construction
    succeeds.  Checks run in source order. -/
def manifest_post_init (m : Manifest) : Option Violation :=
  if m.remotes.isEmpty then some .noRemotes
  else if m.projects.isEmpty then some .noProjects
  else
    match checkDefaultRemote m with
    | some v => some v
    | none =>
      match firstDanglingRemote m.remotes m.projects with
      | some v => some v
      | none => dupPathsCheck m.projects

/-- The duplicate-path loop of `validate_manifest`: one error per project
    whose path was already seen. -/
def dupErrorsLoop : List Project → List String → List Violation
  | [], _ => []
  | p :: rest, seen =>
    (if seen.contains p.path then [Violation.duplicatePath p.path] else []) ++
      dupErrorsLoop rest (p.path :: seen)

/-- `validate_manifest` from `manifest_parser.py`: collects EVERY
    violation, in source order of the rules, before failing. -/
def validate_manifest_errors (m : Manifest) : List Violation :=
  (if m.remotes.isEmpty then [Violation.noRemotes] else []) ++
  (if m.projects.isEmpty then [Violation.noProjects] else []) ++
  ((m.projects.filter (fun p => !(remoteDefined m.remotes p.remote))).map
    (fun p => Violation.danglingRemote p.name p.remote)) ++
  dupErrorsLoop m.projects [] ++
  ((m.projects.filter (fun p => startsWithChar p.path '/')).map
    (fun p => Violation.absolutePath p.name p.path)) ++
  ((m.projects.filter (fun p => (pathSegs p.path).contains dotDotSeg)).map
    (fun p => Violation.dotDotPath p.name p.path)) ++
  (match m.default_remote with
   | none => []
   | some dr =>
     if !(strIsEmpty dr) && !(remoteDefined m.remotes dr) then
       [Violation.defaultRemoteMissing dr]
     else [])

/-- Outcome of the semantic phase of `parse_manifest`. -/
inductive ParseOutcome where
  | validationError (detail : List Violation)
  | ok (m : Manifest)
  deriving DecidableEq, Repr

/-- The FIRST project whose own `__post_init__` fails: in `parse_manifest`
    each `Project(...)` is constructed in turn and the first `ValueError`
    is converted to a `ManifestValidationError` (the precise message —
    empty field, absolute path, `".."` — is abstracted to the offending
    project's name). -/
def firstBadProject (ps : List Project) : Option Project :=
  ps.find? (fun p => !(Project.post_init_ok p))

/-- The semantic phase of `parse_manifest` (after the XML is read into
    raw fields): the source constructs each `Project(...)` (fail-fast),
    then `Manifest(...)` — whose `__post_init__` raises at the FIRST
    violation found, converted to a `ManifestValidationError` carrying
    that single message — and only if construction succeeds calls
    `validate_manifest`, which collects every violation. -/
def parse_manifest_semantic (m : Manifest) : ParseOutcome :=
  match firstBadProject m.projects with
  | some p => .validationError [.projectInvalid p.name]
  | none =>
    match manifest_post_init m with
    | some v => .validationError [v]
    | none =>
      let errs := validate_manifest_errors m
      if errs.isEmpty then .ok m else .validationError errs

/-! ## Push results (src/subrepo/models.py `PushResult`) -/

/-- `PushStatus` enum. -/
inductive PushStatus where
  | success
  | failed
  deriving DecidableEq, Repr

/-- `PushAction` enum. -/
inductive PushAction where
  | created
  | updated
  | skipped
  deriving DecidableEq, Repr

/-- `PushResult` dataclass fields. -/
structure PushResult where
  project_name : String
  status : PushStatus
  action : PushAction
  branch_name : String
  error_message : Option String := none
  deriving DecidableEq, Repr

/-- `PushResult.__post_init__`: a FAILED result must carry a truthy
    (non-`None`, nonempty) error message, a SUCCESS result must not. -/
def PushResult.post_init_ok (r : PushResult) : Bool :=
  !((r.status == .failed) && !(optStrTruthy r.error_message)) &&
  !((r.status == .success) && optStrTruthy r.error_message)

/-- Constructing a `PushResult`: `none` models the `ValueError` raised by
    `__post_init__`. -/
def mkPushResult (project_name : String) (status : PushStatus) (action : PushAction)
    (branch_name : String) (error_message : Option String) : Option PushResult :=
  let r : PushResult :=
    { project_name := project_name, status := status, action := action
      branch_name := branch_name, error_message := error_message }
  if r.post_init_ok then some r else none

/-! ## Pushing a single component
(src/subrepo/subtree_manager.py `SubtreeManager.push_single_component`)

Branch detection is read-only and is modelled by the `current`/`default`
inputs; the one state-mutating external invocation on this code path is
`execute_git_push` (a `git subtree push`), modelled by an oracle `exec`
together with an explicit trace of the push commands issued. -/

/-- The arguments of an `execute_git_push` invocation. -/
structure PushCmd where
  component_name : String
  component_path : String
  remote_url : String
  branch_name : String
  force : Bool
  deriving DecidableEq, Repr

/-- Dictionary lookup `self.manifest.remotes[project.remote]`
    (`none` models the `KeyError`). -/
def lookupRemote (remotes : List (String × Remote)) (name : String) : Option Remote :=
  match remotes.find? (fun r => r.1 == name) with
  | none => none
  | some r => some r.2

/-- `remote.push_url if remote.push_url else f"{remote.fetch}{project.name}"`. -/
def resolveRemoteUrl (remote : Remote) (project : Project) : String :=
  if optStrTruthy remote.push_url then (remote.push_url.getD remote.fetch)
  else remote.fetch ++ project.name

/-- `push_single_component`: returns the result together with the trace
    of `execute_git_push` invocations (empty means the external push tool
    was never invoked and no state was mutated). -/
def push_single_component (current default : String) (manifest : Manifest)
    (project : Project) (exec : PushCmd → PushResult) (force dry_run : Bool) :
    Option (PushResult × List PushCmd) :=
  let branch_info := create_branch_info current default
  let target_branch := determine_target_branch branch_info project
  match lookupRemote manifest.remotes project.remote with
  | none => none
  | some remote =>
    let remote_url := resolveRemoteUrl remote project
    if dry_run then
      some ({ project_name := project.name, status := .success, action := .updated
              branch_name := target_branch, error_message := none }, [])
    else
      let cmd : PushCmd :=
        { component_name := project.name, component_path := project.path
          remote_url := remote_url, branch_name := target_branch, force := force }
      some (exec cmd, [cmd])

/-! ## Component state detection
(src/subrepo/subtree_manager.py `SubtreeManager.detect_component_state`,
`get_all_component_status`) -/

/-- `SubtreeStatus` enum. -/
inductive SubtreeStatus where
  | up_to_date
  | ahead
  | behind
  | diverged
  | modified
  | uninitialized
  | error
  deriving DecidableEq, Repr

/-- `SubtreeState` dataclass (the `datetime` fields, irrelevant to the
    claims, are omitted). -/
structure SubtreeState where
  project : Project
  last_sync_commit : Option String := none
  local_commits : Nat := 0
  upstream_commits : Nat := 0
  has_local_changes : Bool := false
  status : SubtreeStatus := .uninitialized
  deriving DecidableEq, Repr

/-- Workspace observation for state detection: whether a component path
    exists on disk, and the `git status --short` change listing (success
    flag plus raw output lines after splitting on newline). -/
structure WorkspaceEnv where
  existsDisk : String → Bool
  status_success : Bool
  status_lines : List String

/-- One iteration of the change-scanning loop in `detect_component_state`:
    blank lines (after `strip`) are skipped, lines shorter than three
    characters are skipped, otherwise the filename is the line minus its
    two status-code characters and separator, stripped, and it marks the
    component when `filename.startswith(project.path)` or
    `project.path.startswith(filename.rstrip("/"))` — raw string-prefix
    tests on both sides. -/
def lineAffects (path : String) (line : String) : Bool :=
  if strIsEmpty (pyStrip line) then false
  else if pyLen line ≥ 3 then
    let filename := pyStrip (pyDrop line 3)
    pyStartsWith filename path || pyStartsWith path (pyRstripSlash filename)
  else false

/-- `detect_component_state`: UNINITIALIZED when the path is missing on
    disk; otherwise MODIFIED when some reported change line affects the
    component (per `lineAffects`) and the status query succeeded, else
    UP_TO_DATE. -/
def detect_component_state (env : WorkspaceEnv) (project : Project) : SubtreeState :=
  if !(env.existsDisk project.path) then
    { project := project, status := .uninitialized }
  else
    let has_changes := env.status_success && env.status_lines.any (lineAffects project.path)
    if has_changes then
      { project := project, status := .modified, has_local_changes := true }
    else
      { project := project, status := .up_to_date, has_local_changes := false }

/-- The ERROR state recorded by `get_all_component_status` when detection
    raises. -/
def errorState (project : Project) : SubtreeState :=
  { project := project, status := .error, has_local_changes := false
    local_commits := 0, upstream_commits := 0 }

/-- The state recorded for one component by `get_all_component_status`:
    the detected state, or the ERROR state when detection raised
    (`none`). -/
def componentState (detect : Project → Option SubtreeState) (p : Project) : SubtreeState :=
  match detect p with
  | some st => st
  | none => errorState p

/-- The append loop of `get_all_component_status`: one state per
    project, in order; a raised detection exception is caught and
    recorded as the ERROR state. -/
def statusLoop (detect : Project → Option SubtreeState) : List Project → List SubtreeState
  | [] => []
  | p :: rest => componentState detect p :: statusLoop detect rest

/-- `get_all_component_status`: iterates the manifest projects in order;
    detection is an oracle (`none` models a raised exception). -/
def get_all_component_status (detect : Project → Option SubtreeState)
    (manifest : Manifest) : List SubtreeState :=
  statusLoop detect manifest.projects

/-- Count of states carrying a given status (per-status bucket of a
    status summary). -/
def countStatus (states : List SubtreeState) (st : SubtreeStatus) : Nat :=
  (states.filter (fun s => s.status == st)).length

/-! ## Batch sync (src/subrepo/subtree_manager.py
`SubtreeManager.sync_all_components`) -/

/-- `GitOperationResult` dataclass (the `duration` float, irrelevant to
    the claims, is omitted). -/
structure GitOperationResult where
  success : Bool
  stdout : String
  stderr : String
  exit_code : Int
  command : List String
  deriving DecidableEq, Repr

/-- Outcome of one `_sync_component` call: either it returns a result, or
    it raises a `GitOperationError` with a message. -/
inductive SyncOutcome where
  | returns (r : GitOperationResult)
  | raises (msg : String)
  deriving DecidableEq, Repr

/-- The exception aborting a batch sync. -/
inductive SyncErr where
  | uncommitted
  | syncFailed (path stderr : String)
  | syncRaised (msg : String)
  deriving DecidableEq, Repr

/-- The empty string (named, for use in record literals). -/
def strNil : String :=
  ""

/-- The synthesized failure result stored under `continue_on_error` when
    `_sync_component` raised (`success=False`, `exit_code=1`, the message
    in `stderr`). -/
def syntheticFailure (msg : String) : GitOperationResult :=
  { success := false, stdout := strNil, stderr := msg, exit_code := 1, command := [] }

/-- The result that ends up recorded for a component under
    `continue_on_error=True`: the real returned result, or the synthesized
    failure when `_sync_component` raised. -/
def effectiveResult (sync : Project → SyncOutcome) (p : Project) : GitOperationResult :=
  match sync p with
  | .returns r => r
  | .raises m => syntheticFailure m

/-- Does the sync of a component fail (returned `success=False`, or
    raised)? -/
def syncFails (sync : Project → SyncOutcome) (p : Project) : Bool :=
  match sync p with
  | .returns r => !r.success
  | .raises _ => true

/-- The per-component loop of `sync_all_components`.  Returns the
    outcome (`ok` with the ordered result map, or `error` when the
    aborting exception propagates and no map is returned) paired with the
    trace of components on which `_sync_component` was actually invoked.
    A returned failure is stored in the map before the `raise`, but the
    raise then propagates out of the function, so the caller never
    receives the map. -/
def syncLoop (sync : Project → SyncOutcome) (co : Bool) :
    List Project → Except SyncErr (List (String × GitOperationResult)) × List Project
  | [] => (.ok [], [])
  | p :: rest =>
    match sync p with
    | .returns r =>
      if !r.success && !co then (.error (.syncFailed p.path r.stderr), [p])
      else
        match syncLoop sync co rest with
        | (.ok tail, att) => (.ok ((p.path, r) :: tail), p :: att)
        | (.error e, att) => (.error e, p :: att)
    | .raises m =>
      if !co then (.error (.syncRaised m), [p])
      else
        match syncLoop sync co rest with
        | (.ok tail, att) => (.ok ((p.path, syntheticFailure m) :: tail), p :: att)
        | (.error e, att) => (.error e, p :: att)

/-- `sync_all_components`: when `force` is unset and the workspace has
    uncommitted changes, a `WorkspaceError` aborts before any component
    is attempted; otherwise the components are synced in manifest order.
    (The stash/stash-pop bookkeeping of force mode touches no component
    and is not traced.) -/
def sync_all_components (clean force co : Bool) (sync : Project → SyncOutcome)
    (projects : List Project) :
    Except SyncErr (List (String × GitOperationResult)) × List Project :=
  if !force && !clean then (.error .uncommitted, [])
  else syncLoop sync co projects

/-! ## File operations (src/subrepo/file_operations.py)

Filesystem paths are modelled as lists of segments (an absolute path is
its normalized segment list); mutations are recorded in an explicit
trace of `FsOp` values. -/

/-- `pathlib` resolution of a segment sequence: empty and `"."` segments
    vanish, `".."` pops (resolution at the root stays at the root, as
    with `Path.resolve`). -/
def normalizeSegs (segs : List (List Char)) : List (List Char) :=
  segs.foldl
    (fun acc seg =>
      if seg.isEmpty || seg == ['.'] then acc
      else if seg == dotDotSeg then acc.dropLast
      else acc ++ [seg])
    []

/-- `(workspace_root / rel).resolve()` for a normalized absolute root and
    a relative string path (symlink-free model of `pathlib.Path.resolve`). -/
def resolveUnder (root : List (List Char)) (rel : String) : List (List Char) :=
  normalizeSegs (root ++ pathSegs rel)

/-- Does `rel`, resolved against the root, escape the root?  This is the
    failure of `dest_absolute.relative_to(workspace_absolute)`. -/
def escapesRoot (root : List (List Char)) (rel : String) : Bool :=
  !(root.isPrefixOf (resolveUnder root rel))

/-- `PathSecurityError` payloads, one constructor per raise site of
    `validate_path_security`. -/
inductive PathSecurityError where
  | dotDot (src dest : String)
  | absolute (src dest : String)
  | escape (dest : String)
  deriving DecidableEq, Repr

/-- `validate_path_security`: rejects a `".."` substring in either path,
    then a leading slash on either path, then a destination that resolves
    outside the workspace root.  (`project_dir` is accepted but unused,
    as in the source.) -/
def validate_path_security (src_path dest_path : String)
    (workspace_root : List (List Char)) (_project_dir : List (List Char)) :
    Except PathSecurityError Unit :=
  if strHasDotDot src_path || strHasDotDot dest_path then
    .error (.dotDot src_path dest_path)
  else if startsWithChar src_path '/' || startsWithChar dest_path '/' then
    .error (.absolute src_path dest_path)
  else if escapesRoot workspace_root dest_path then
    .error (.escape dest_path)
  else .ok ()

/-- A filesystem mutation. -/
inductive FsOp where
  | mkdirp (dir : List (List Char))
  | copy (src dest : List (List Char))
  | symlink (target link : List (List Char))
  deriving DecidableEq, Repr

/-- Operation type of a `FileOperationResult`. -/
inductive OpType where
  | copyfile
  | linkfile
  deriving DecidableEq, Repr

/-- Failure cause of a file operation (the source stores `str(e)`; the
    payload is kept structured here). -/
inductive FileOpErr where
  | security (e : PathSecurityError)
  | srcMissing (src : List (List Char))
  | copyOSError (msg : String)
  | linkBothFailed (msg : String)
  deriving DecidableEq, Repr

/-- `FileOperationResult` dataclass. -/
structure FileOperationResult where
  project_name : String
  operation_type : OpType
  src : String
  dest : String
  success : Bool
  error : Option FileOpErr := none
  fallback_used : Bool := false
  deriving DecidableEq, Repr

/-- Filesystem oracle outcome for one `copy_file` call. -/
inductive CopyOutcome where
  | ok
  | srcMissing
  | osError (msg : String)
  deriving DecidableEq, Repr

/-- `copy_file`: the source-existence check runs before any mutation;
    `dest.parent.mkdir` runs before `shutil.copy2`, so an `OSError`
    during the copy still leaves the created parent directories behind. -/
def copy_file_ops (oc : CopyOutcome) (src dest : List (List Char)) :
    Option FileOpErr × List FsOp :=
  match oc with
  | .srcMissing => (some (.srcMissing src), [])
  | .osError m => (some (.copyOSError m), [.mkdirp dest.dropLast])
  | .ok => (none, [.mkdirp dest.dropLast, .copy src dest])

/-- One iteration of `execute_copyfile_operations`: validate, then join
    `project_dir / src` and `workspace_root / dest`, then copy; a
    `PathSecurityError` or `FileOperationError` is caught and recorded as
    a failed result.  The second component is the trace of filesystem
    mutations performed for this directive. -/
def processCopyfile (oracle : List (List Char) → List (List Char) → CopyOutcome)
    (projectName : String) (root projdir : List (List Char)) (cf : Copyfile) :
    FileOperationResult × List FsOp :=
  match validate_path_security cf.src cf.dest root projdir with
  | .error e =>
    ({ project_name := projectName, operation_type := .copyfile, src := cf.src
       dest := cf.dest, success := false, error := some (.security e) }, [])
  | .ok _ =>
    let srcAbs := projdir ++ pathSegs cf.src
    let destAbs := root ++ pathSegs cf.dest
    match copy_file_ops (oracle srcAbs destAbs) srcAbs destAbs with
    | (none, ops) =>
      ({ project_name := projectName, operation_type := .copyfile, src := cf.src
         dest := cf.dest, success := true }, ops)
    | (some err, ops) =>
      ({ project_name := projectName, operation_type := .copyfile, src := cf.src
         dest := cf.dest, success := false, error := some err }, ops)

/-- `execute_copyfile_operations`: processes every copyfile directive of
    a project in order, concatenating the per-directive mutation traces. -/
def execute_copyfile_operations (oracle : List (List Char) → List (List Char) → CopyOutcome)
    (projectName : String) (root projdir : List (List Char)) :
    List Copyfile → List FileOperationResult × List FsOp
  | [] => ([], [])
  | cf :: rest =>
    let step := processCopyfile oracle projectName root projdir cf
    let tail := execute_copyfile_operations oracle projectName root projdir rest
    (step.1 :: tail.1, step.2 ++ tail.2)

/-- Filesystem oracle outcome for one `create_symlink` call. -/
inductive LinkOutcome where
  | ok
  | fallbackCopied
  | bothFailed (msg : String)
  deriving DecidableEq, Repr

/-- `create_symlink`: `link.parent.mkdir` runs first, then the symlink is
    attempted, falling back to a copy; when both fail a
    `FileOperationError` is raised (the created parent directories
    remain). -/
def create_symlink_ops (oc : LinkOutcome) (target link : List (List Char)) :
    (Option FileOpErr × Bool) × List FsOp :=
  match oc with
  | .ok => ((none, false), [.mkdirp link.dropLast, .symlink target link])
  | .fallbackCopied => ((none, true), [.mkdirp link.dropLast, .copy target link])
  | .bothFailed m => ((some (.linkBothFailed m), false), [.mkdirp link.dropLast])

/-- One iteration of `execute_linkfile_operations` (mirror of
    `processCopyfile` for linkfile directives). -/
def processLinkfile (oracle : List (List Char) → List (List Char) → LinkOutcome)
    (projectName : String) (root projdir : List (List Char)) (lf : Linkfile) :
    FileOperationResult × List FsOp :=
  match validate_path_security lf.src lf.dest root projdir with
  | .error e =>
    ({ project_name := projectName, operation_type := .linkfile, src := lf.src
       dest := lf.dest, success := false, error := some (.security e) }, [])
  | .ok _ =>
    let srcAbs := projdir ++ pathSegs lf.src
    let destAbs := root ++ pathSegs lf.dest
    match create_symlink_ops (oracle srcAbs destAbs) srcAbs destAbs with
    | ((none, fb), ops) =>
      ({ project_name := projectName, operation_type := .linkfile, src := lf.src
         dest := lf.dest, success := true, fallback_used := fb }, ops)
    | ((some err, _), ops) =>
      ({ project_name := projectName, operation_type := .linkfile, src := lf.src
         dest := lf.dest, success := false, error := some err }, ops)

/-- `execute_linkfile_operations`: processes every linkfile directive of
    a project in order, concatenating the per-directive mutation traces. -/
def execute_linkfile_operations (oracle : List (List Char) → List (List Char) → LinkOutcome)
    (projectName : String) (root projdir : List (List Char)) :
    List Linkfile → List FileOperationResult × List FsOp
  | [] => ([], [])
  | lf :: rest =>
    let step := processLinkfile oracle projectName root projdir lf
    let tail := execute_linkfile_operations oracle projectName root projdir rest
    (step.1 :: tail.1, step.2 ++ tail.2)

/-! ## Specification-side predicates

These follow the words of the specification (not the code) and are used
to state claims and counterexamples. -/

/-- The specification's "change path is within the component path or is an
    ancestor directory of it": segment-wise containment, so a mere string
    prefix such as `libfoo` versus component `lib` does not qualify. -/
def specWithinOrAncestor (componentPath filePath : String) : Bool :=
  (pathSegs componentPath).isPrefixOf (pathSegs filePath) ||
  (pathSegs (pyRstripSlash filePath)).isPrefixOf (pathSegs componentPath)

/-! ## Concrete example values (inputs of counterexamples and witnesses) -/

/-- Forty `f` characters: a well-formed commit SHA. -/
def shaF40 : String :=
  "ffffffffffffffffffffffffffffffffffffffff"

/-- Forty `f` characters followed by a newline: 41 characters. -/
def shaF40nl : String :=
  "ffffffffffffffffffffffffffffffffffffffff\n"

/-- Forty `a` characters: a well-formed commit SHA. -/
def shaA40 : String :=
  "aaaaaaaaaaaaaaaaaaaaaaaaaaaaaaaaaaaaaaaa"

/-- A `BranchInfo` for a workspace sitting on its default branch `main`. -/
def biDefaultCE : BranchInfo :=
  { current_branch := "main", is_default_branch := true
    default_branch := "main", target_branch := "main" }

/-- A `BranchInfo` for a workspace on feature branch `feature-x`. -/
def biFeatureCE : BranchInfo :=
  { current_branch := "feature-x", is_default_branch := false
    default_branch := "main", target_branch := "feature-x" }

/-- A constructible project whose revision is the empty string (no
    `__post_init__` clause rejects it). -/
def projEmptyRevCE : Project :=
  { name := "org/empty", path := "comp/empty", remote := "origin", revision := "" }

/-- A project tracking branch `develop`. -/
def projBranchRevCE : Project :=
  { name := "org/dev", path := "comp/dev", remote := "origin", revision := "develop" }

/-- A project pinned to a commit SHA. -/
def projShaRevCE : Project :=
  { name := "org/pinned", path := "comp/pinned", remote := "origin", revision := shaA40 }

/-- The string `"develop"`. -/
def developStr : String :=
  "develop"

/-- The string `"main"`. -/
def mainStr : String :=
  "main"

/-- The string `"feature-x"`. -/
def featureStr : String :=
  "feature-x"

/-- The `origin` remote used by the examples. -/
def remoteOriginCE : Remote :=
  { name := "origin", fetch := "https://github.com/" }

/-- The key under which `remoteOriginCE` is registered. -/
def mainRemoteName : String :=
  "origin"

/-- A manifest with two independent semantic violations: projects `a` and
    `b` share the path `lib/repo`, and project `c` references the
    undefined remote `ghost`. -/
def manifestTwoViolations : Manifest :=
  { remotes := [(mainRemoteName, remoteOriginCE)]
    projects :=
      [{ name := "org/a", path := "lib/repo", remote := "origin", revision := "main" },
       { name := "org/b", path := "lib/repo", remote := "origin", revision := "main" },
       { name := "org/c", path := "lib/other", remote := "ghost", revision := "main" }]
    default_remote := some "origin" }

/-- A valid single-project manifest. -/
def manifestOkCE : Manifest :=
  { remotes := [(mainRemoteName, remoteOriginCE)]
    projects :=
      [{ name := "org/lib", path := "lib", remote := "origin", revision := "main" }]
    default_remote := some "origin" }

/-- The single project of `manifestOkCE`. -/
def projLibCE : Project :=
  { name := "org/lib", path := "lib", remote := "origin", revision := "main" }

/-- A workspace observation where `lib` exists on disk and the only
    reported change is to `libfoo/a.txt` — a path sharing a string prefix
    with component `lib` but lying outside it. -/
def envLibfooCE : WorkspaceEnv :=
  { existsDisk := fun s => s == "lib"
    status_success := true
    status_lines := ["?? libfoo/a.txt"] }

/-- The string `"lib"`. -/
def libStr : String :=
  "lib"

/-- The string `"libfoo/a.txt"`. -/
def libfooFileStr : String :=
  "libfoo/a.txt"

/-- A detection oracle that always raises. -/
def detectRaisesCE : Project → Option SubtreeState :=
  fun _ => none

/-- A successful sync result. -/
def syncOkResultCE : GitOperationResult :=
  { success := true, stdout := "ok", stderr := "", exit_code := 0, command := [] }

/-- The three projects of the batch-sync example; the middle one fails. -/
def projGoodCE : Project :=
  { name := "org/good", path := "good", remote := "origin", revision := "main" }

/-- Failing middle project of the batch-sync example. -/
def projBadCE : Project :=
  { name := "org/bad", path := "bad", remote := "origin", revision := "main" }

/-- Project after the failing one in the batch-sync example. -/
def projAfterCE : Project :=
  { name := "org/after", path := "after", remote := "origin", revision := "main" }

/-- A sync oracle under which `projBadCE` raises and everything else
    succeeds. -/
def syncOracleCE : Project → SyncOutcome :=
  fun p => if p.path == "bad" then .raises "boom" else .returns syncOkResultCE

/-- A push executor echoing its command (used to instantiate oracles). -/
def execEchoCE : PushCmd → PushResult :=
  fun c =>
    { project_name := c.component_name, status := .success, action := .updated
      branch_name := c.branch_name, error_message := none }

/-- A copyfile directive whose destination climbs out of the workspace. -/
def cfDotDotCE : Copyfile :=
  { src := "a.txt", dest := "../escape.txt" }

/-- A linkfile directive whose destination climbs out of the workspace. -/
def lfDotDotCE : Linkfile :=
  { src := "a.txt", dest := "../escape.txt" }

/-- Workspace root `/ws` as segments. -/
def rootSegsCE : List (List Char) :=
  [['w', 's']]

/-- Project directory `/ws/lib` as segments. -/
def projdirSegsCE : List (List Char) :=
  [['w', 's'], ['l', 'i', 'b']]

/-- A copy oracle that always succeeds. -/
def copyOracleCE : List (List Char) → List (List Char) → CopyOutcome :=
  fun _ _ => .ok

/-- A link oracle that always succeeds. -/
def linkOracleCE : List (List Char) → List (List Char) → LinkOutcome :=
  fun _ _ => .ok

/-- The string `"comp"`. -/
def compStr : String :=
  "comp"

/-- The string `"boom"`. -/
def boomStr : String :=
  "boom"

/-- The string `"org/c"` (name of the dangling-remote project). -/
def cNameStr : String :=
  "org/c"

/-- The string `"ghost"` (the undefined remote). -/
def ghostStr : String :=
  "ghost"

/-- The string `"lib/repo"` (the duplicated project path). -/
def dupPathStr : String :=
  "lib/repo"

/-! ## Helper lemmas -/

theorem splitSegs_ne_nil (cs : List Char) : splitSegs cs ≠ [] := by
  cases cs with
  | nil => simp [splitSegs]
  | cons c t =>
    simp only [splitSegs]
    split
    · simp
    · cases h : splitSegs t <;> simp

theorem splitSegs_head_prefix :
    ∀ (cs : List Char) (h : List Char) (t : List (List Char)),
      splitSegs cs = h :: t → h <+: cs := by
  intro cs
  induction cs with
  | nil =>
    intro h t hs
    simp [splitSegs] at hs
    simp [hs.1]
  | cons c cs ih =>
    intro h t hs
    simp only [splitSegs] at hs
    by_cases hc : c == '/'
    · rw [if_pos hc] at hs
      cases hs
      exact List.nil_prefix
    · rw [if_neg hc] at hs
      cases hr : splitSegs cs with
      | nil => exact absurd hr (splitSegs_ne_nil cs)
      | cons h0 t0 =>
        rw [hr] at hs
        obtain ⟨hh, _⟩ := List.cons_eq_cons.mp hs
        subst hh
        exact List.cons_prefix_cons.mpr ⟨rfl, ih h0 t0 hr⟩

theorem dotdot_seg_imp_substr :
    ∀ cs : List Char, dotDotSeg ∈ splitSegs cs → hasDotDotChars cs = true := by
  intro cs
  induction cs with
  | nil =>
    intro hmem
    simp [splitSegs, dotDotSeg] at hmem
  | cons c cs ih =>
    intro hmem
    simp only [splitSegs] at hmem
    by_cases hc : c == '/'
    · rw [if_pos hc] at hmem
      rcases List.mem_cons.mp hmem with h | h
      · simp [dotDotSeg] at h
      · simp [hasDotDotChars, ih h]
    · rw [if_neg hc] at hmem
      cases hr : splitSegs cs with
      | nil => exact absurd hr (splitSegs_ne_nil cs)
      | cons h0 t0 =>
        rw [hr] at hmem
        rcases List.mem_cons.mp hmem with h | h
        · have hc2 : c = '.' ∧ h0 = ['.'] := by
            have := h.symm
            simp [dotDotSeg] at this
            exact ⟨this.1, this.2⟩
          obtain ⟨hceq, h0eq⟩ := hc2
          have hpre : h0 <+: cs := splitSegs_head_prefix cs h0 t0 hr
          rw [h0eq] at hpre
          obtain ⟨rest, hrest⟩ := hpre
          subst hceq
          rw [← hrest]
          simp [hasDotDotChars, twoDotsAhead]
        · have : dotDotSeg ∈ splitSegs cs := by
            rw [hr]; exact List.mem_cons_of_mem _ h
          simp [hasDotDotChars, ih this]

theorem statusLoop_eq_map (detect : Project → Option SubtreeState) :
    ∀ ps : List Project, statusLoop detect ps = ps.map (componentState detect) := by
  intro ps
  induction ps with
  | nil => rfl
  | cons p rest ih => simp [statusLoop, ih]

theorem countStatus_total (l : List SubtreeState) :
    countStatus l .up_to_date + countStatus l .ahead + countStatus l .behind +
      countStatus l .diverged + countStatus l .modified + countStatus l .uninitialized +
      countStatus l .error = l.length := by
  induction l with
  | nil => rfl
  | cons s rest ih =>
    cases h : s.status <;>
      simp [countStatus, List.filter_cons, h] at ih ⊢ <;> omega

theorem syncLoop_co_true (sync : Project → SyncOutcome) :
    ∀ ps : List Project,
      syncLoop sync true ps =
        (.ok (ps.map (fun p => (p.path, effectiveResult sync p))), ps) := by
  intro ps
  induction ps with
  | nil => rfl
  | cons p rest ih =>
    cases hsp : sync p with
    | returns r => simp [syncLoop, hsp, ih, effectiveResult]
    | raises m => simp [syncLoop, hsp, ih, effectiveResult]

theorem syncLoop_abort (sync : Project → SyncOutcome) (pfail : Project)
    (hfail : syncFails sync pfail = true) :
    ∀ (pre post : List Project), (∀ p ∈ pre, syncFails sync p = false) →
      ∃ e, syncLoop sync false (pre ++ pfail :: post) = (.error e, pre ++ [pfail]) := by
  intro pre
  induction pre with
  | nil =>
    intro post _
    cases hsp : sync pfail with
    | returns r =>
      have hr : r.success = false := by
        simp [syncFails, hsp] at hfail
        exact hfail
      exact ⟨.syncFailed pfail.path r.stderr, by simp [syncLoop, hsp, hr]⟩
    | raises m =>
      exact ⟨.syncRaised m, by simp [syncLoop, hsp]⟩
  | cons p pre ih =>
    intro post hpre
    have hp : syncFails sync p = false := hpre p (List.mem_cons_self p pre)
    have hrest : ∀ q ∈ pre, syncFails sync q = false :=
      fun q hq => hpre q (List.mem_cons_of_mem p hq)
    obtain ⟨e, he⟩ := ih post hrest
    cases hsp : sync p with
    | returns r =>
      have hr : r.success = true := by
        simp [syncFails, hsp] at hp
        exact hp
      refine ⟨e, ?_⟩
      simp [syncLoop, hsp, hr, he]
    | raises m =>
      exfalso
      simp [syncFails, hsp] at hp

/-! ## Claim theorems -/

/-- C9: the claim says `is_commit_sha` returns true iff the input is
    exactly 40 characters, all hexadecimal, and that ANY 41-character
    string returns false.  The code compiles `^[0-9a-fA-F]{40}$` and in
    Python `$` also matches just before a trailing newline, so the
    41-character string of forty `f`s followed by `'\n'` — not a
    40-character hexadecimal SHA, contradicting the function's own
    docstring — is accepted.  (The 40-character hexadecimal inputs
    behave as claimed.) -/
theorem C9_is_commit_sha_trailing_newline_bug :
    is_commit_sha shaF40nl = true ∧ pyLen shaF40nl = 41 ∧
    isHex40Spec shaF40nl = false ∧
    is_commit_sha shaF40 = true ∧ is_commit_sha shaA40 = true ∧
    is_commit_sha mainStr = false := by
  decide

/-- C10: the `BranchInfo` built by `create_branch_info` always satisfies
    `target_branch = current_branch`: when the detected current branch
    equals the detected default the target is the default branch (which
    is the current branch), otherwise the target is the current branch. -/
theorem C10_create_branch_info_target_eq_current (current default : String) :
    (create_branch_info current default).target_branch =
      (create_branch_info current default).current_branch := by
  by_cases h : current = default
  · have hb : (current == default) = true := beq_iff_eq.mpr h
    simp [create_branch_info, hb, h]
  · have hb : (current == default) = false := beq_eq_false_iff_ne.mpr h
    simp [create_branch_info, hb]

/-- C8: every constructible `PushResult` satisfies
    `status = FAILED ↔ error_message is truthy (non-None and nonempty)`;
    construction with FAILED and an empty (falsy) error message, or with
    SUCCESS and a non-empty error message, fails (`__post_init__`
    raises). -/
theorem C8_push_result_failed_iff_error :
    (∀ (n : String) (st : PushStatus) (a : PushAction) (b : String)
        (e : Option String) (r : PushResult), mkPushResult n st a b e = some r →
        ((r.status = PushStatus.failed) ↔ optStrTruthy r.error_message = true)) ∧
    (∀ (n : String) (a : PushAction) (b : String) (e : Option String),
        optStrTruthy e = false → mkPushResult n PushStatus.failed a b e = none) ∧
    (∀ (n : String) (a : PushAction) (b : String) (e : Option String),
        optStrTruthy e = true → mkPushResult n PushStatus.success a b e = none) := by
  refine ⟨?_, ?_, ?_⟩
  · intro n st a b e r hmk
    cases st <;> cases hT : optStrTruthy e <;>
      simp [mkPushResult, PushResult.post_init_ok, hT] at hmk <;>
      rw [← hmk] <;> simp [hT]
  · intro n a b e hT
    simp [mkPushResult, PushResult.post_init_ok, hT]
  · intro n a b e hT
    simp [mkPushResult, PushResult.post_init_ok, hT]

/-- C8 witness: concrete instances of all three conjuncts. -/
theorem C8_push_result_failed_iff_error_witness :
    ((PushStatus.failed = PushStatus.failed) ↔ optStrTruthy (some boomStr) = true) ∧
    mkPushResult compStr PushStatus.failed PushAction.created mainStr none = none ∧
    mkPushResult compStr PushStatus.success PushAction.created mainStr (some boomStr) = none := by
  refine ⟨?_, ?_, ?_⟩
  · have h : mkPushResult compStr PushStatus.failed PushAction.skipped mainStr (some boomStr) =
        some { project_name := compStr, status := .failed, action := .skipped
               branch_name := mainStr, error_message := some boomStr } := by decide
    exact C8_push_result_failed_iff_error.1 compStr PushStatus.failed PushAction.skipped
      mainStr (some boomStr) _ h
  · exact C8_push_result_failed_iff_error.2.1 compStr PushAction.created mainStr none
      (by decide)
  · exact C8_push_result_failed_iff_error.2.2 compStr PushAction.created mainStr
      (some boomStr) (by decide)

/-- C2 counterexample: the claim says that on the default branch a
    revision that is not a 40-hex-character SHA is returned as the target.
    The constructible project with the empty revision (not a SHA) refutes
    it: Python truthiness makes the code fall back to the default branch. -/
theorem C2_counterexample_empty_revision :
    BranchInfo.post_init_ok biDefaultCE = true ∧
    Project.post_init_ok projEmptyRevCE = true ∧
    biDefaultCE.is_default_branch = true ∧
    isHex40Spec projEmptyRevCE.revision = false ∧
    determine_target_branch biDefaultCE projEmptyRevCE ≠ projEmptyRevCE.revision := by
  decide

/-- C2 amended: on the default branch the target is the project's
    revision when that revision is non-empty and not classified as a
    commit SHA by `is_commit_sha`; when the revision is classified as a
    SHA or is empty, the target is the context's default branch; off the
    default branch the target is the context's current branch regardless
    of the revision. -/
theorem C2_determine_target_branch_amended (bi : BranchInfo) (p : Project) :
    (bi.is_default_branch = true → strIsEmpty p.revision = false →
        is_commit_sha p.revision = false →
        determine_target_branch bi p = p.revision) ∧
    (bi.is_default_branch = true →
        (is_commit_sha p.revision = true ∨ strIsEmpty p.revision = true) →
        determine_target_branch bi p = bi.default_branch) ∧
    (bi.is_default_branch = false →
        determine_target_branch bi p = bi.current_branch) := by
  refine ⟨?_, ?_, ?_⟩
  · intro hd hne hsha
    simp [determine_target_branch, hd, extract_default_branch_from_project, hsha,
      optStrTruthy, hne]
  · intro hd hcase
    rcases hcase with hsha | hemp
    · simp [determine_target_branch, hd, extract_default_branch_from_project, hsha,
        optStrTruthy]
    · by_cases hsha : is_commit_sha p.revision
      · simp [determine_target_branch, hd, extract_default_branch_from_project, hsha,
          optStrTruthy]
      · simp [determine_target_branch, hd, extract_default_branch_from_project, hsha,
          optStrTruthy, hemp]
  · intro hd
    simp [determine_target_branch, hd]

/-- C2 amended witness: the three cases at concrete inputs. -/
theorem C2_determine_target_branch_amended_witness :
    determine_target_branch biDefaultCE projBranchRevCE = projBranchRevCE.revision ∧
    determine_target_branch biDefaultCE projShaRevCE = biDefaultCE.default_branch ∧
    determine_target_branch biFeatureCE projShaRevCE = biFeatureCE.current_branch := by
  refine ⟨?_, ?_, ?_⟩
  · exact (C2_determine_target_branch_amended biDefaultCE projBranchRevCE).1 rfl
      (by decide) (by decide)
  · exact (C2_determine_target_branch_amended biDefaultCE projShaRevCE).2.1 rfl
      (Or.inl (by decide))
  · exact (C2_determine_target_branch_amended biFeatureCE projShaRevCE).2.2 rfl

/-- C1 counterexample: `manifestTwoViolations` carries two independent
    semantic violations (a duplicated project path and a dangling remote
    reference), and `validate_manifest` would enumerate both; but the
    parse pipeline fails during `Manifest.__post_init__` with a detail of
    ONE violation — the first found — refuting the claim that all k
    violations are enumerated. -/
theorem C1_counterexample_fail_fast :
    parse_manifest_semantic manifestTwoViolations =
      ParseOutcome.validationError [Violation.danglingRemote cNameStr ghostStr] ∧
    validate_manifest_errors manifestTwoViolations =
      [Violation.danglingRemote cNameStr ghostStr, Violation.duplicatePath dupPathStr] := by
  decide

/-- C1 amended: when any project fails its own construction, or the
    `Manifest` constructor's fail-fast validation finds a violation
    (dangling remote, duplicate paths, missing default remote, empty
    collections), `parse_manifest` fails with a validation error whose
    detail carries only that single first violation; the collect-all
    enumeration of `validate_manifest` is reached only when construction
    found nothing. -/
theorem C1_parse_manifest_first_violation_amended (m : Manifest) :
    (∀ v, firstBadProject m.projects = none → manifest_post_init m = some v →
        parse_manifest_semantic m = ParseOutcome.validationError [v]) ∧
    (firstBadProject m.projects = none → manifest_post_init m = none →
        validate_manifest_errors m ≠ [] →
        parse_manifest_semantic m =
          ParseOutcome.validationError (validate_manifest_errors m)) ∧
    (firstBadProject m.projects = none → manifest_post_init m = none →
        validate_manifest_errors m = [] →
        parse_manifest_semantic m = ParseOutcome.ok m) := by
  refine ⟨?_, ?_, ?_⟩
  · intro v hbad hpi
    simp [parse_manifest_semantic, hbad, hpi]
  · intro hbad hpi hne
    have hemp : (validate_manifest_errors m).isEmpty = false := by
      cases h : validate_manifest_errors m with
      | nil => exact absurd h hne
      | cons a t => simp
    simp [parse_manifest_semantic, hbad, hpi, hemp]
  · intro hbad hpi hnil
    simp [parse_manifest_semantic, hbad, hpi, hnil]

/-- C1 amended witness: the fail-fast single-violation failure on the
    two-violation manifest, and success on a valid manifest. -/
theorem C1_parse_manifest_first_violation_amended_witness :
    parse_manifest_semantic manifestTwoViolations =
      ParseOutcome.validationError [Violation.danglingRemote cNameStr ghostStr] ∧
    parse_manifest_semantic manifestOkCE = ParseOutcome.ok manifestOkCE := by
  constructor
  · exact (C1_parse_manifest_first_violation_amended manifestTwoViolations).1
      (Violation.danglingRemote cNameStr ghostStr) (by decide) (by decide)
  · exact (C1_parse_manifest_first_violation_amended manifestOkCE).2.2
      (by decide) (by decide) (by decide)

/-- C3: with `dry_run` set, `push_single_component` returns the
    synthesized successful `PushResult` — SUCCESS status, the resolved
    target branch, no error message — with an EMPTY trace of external
    push invocations (the external push tool is never run and no state is
    mutated); the synthesized result also satisfies the `PushResult`
    construction invariant. -/
theorem C3_push_single_component_dry_run (current default : String)
    (manifest : Manifest) (project : Project) (exec : PushCmd → PushResult)
    (force : Bool) (remote : Remote)
    (h : lookupRemote manifest.remotes project.remote = some remote) :
    push_single_component current default manifest project exec force true =
      some ({ project_name := project.name, status := .success, action := .updated
              branch_name :=
                determine_target_branch (create_branch_info current default) project
              error_message := none }, []) ∧
    PushResult.post_init_ok
      { project_name := project.name, status := .success, action := .updated
        branch_name :=
          determine_target_branch (create_branch_info current default) project
        error_message := none } = true := by
  constructor
  · simp [push_single_component, h]
  · simp [PushResult.post_init_ok, optStrTruthy]

/-- C3 witness: dry run at a concrete workspace. -/
theorem C3_push_single_component_dry_run_witness :
    push_single_component mainStr mainStr manifestOkCE projLibCE execEchoCE false true =
      some ({ project_name := projLibCE.name, status := .success, action := .updated
              branch_name :=
                determine_target_branch (create_branch_info mainStr mainStr) projLibCE
              error_message := none }, []) :=
  (C3_push_single_component_dry_run mainStr mainStr manifestOkCE projLibCE execEchoCE
    false remoteOriginCE (by decide)).1

/-- C4 counterexample: the claim says a change to a path that merely
    shares a string prefix with the component path (here `libfoo/a.txt`
    against component `lib`) does not make the component MODIFIED; the
    code's raw `startswith` test marks it MODIFIED with local changes. -/
theorem C4_counterexample_prefix_collision :
    specWithinOrAncestor libStr libfooFileStr = false ∧
    envLibfooCE.existsDisk projLibCE.path = true ∧
    envLibfooCE.status_success = true ∧
    (detect_component_state envLibfooCE projLibCE).status = SubtreeStatus.modified ∧
    (detect_component_state envLibfooCE projLibCE).has_local_changes = true := by
  decide

/-- C4 amended: UNINITIALIZED exactly when the component path does not
    exist on disk; otherwise MODIFIED with local changes exactly when the
    status query succeeded and some reported change line matches the
    code's raw string-prefix test (`filename.startswith(path)` or
    `path.startswith(filename.rstrip("/"))` — so a mere string prefix
    like `libfoo` for component `lib` DOES count), and UP_TO_DATE without
    local changes otherwise. -/
theorem C4_detect_component_state_amended (env : WorkspaceEnv) (p : Project) :
    ((detect_component_state env p).status = SubtreeStatus.uninitialized ↔
      env.existsDisk p.path = false) ∧
    (env.existsDisk p.path = true →
      (((detect_component_state env p).status = SubtreeStatus.modified ∧
        (detect_component_state env p).has_local_changes = true) ↔
       (env.status_success && env.status_lines.any (lineAffects p.path)) = true)) ∧
    (env.existsDisk p.path = true →
      (env.status_success && env.status_lines.any (lineAffects p.path)) = false →
      (detect_component_state env p).status = SubtreeStatus.up_to_date ∧
      (detect_component_state env p).has_local_changes = false) := by
  cases hex : env.existsDisk p.path with
  | false => refine ⟨?_, ?_, ?_⟩ <;> simp [detect_component_state, hex]
  | true =>
    cases hch : (env.status_success && env.status_lines.any (lineAffects p.path)) with
    | false => refine ⟨?_, ?_, ?_⟩ <;> simp [detect_component_state, hex, hch]
    | true => refine ⟨?_, ?_, ?_⟩ <;> simp [detect_component_state, hex, hch]

/-- C4 amended witness: the prefix-collision workspace is detected as
    MODIFIED via the amended characterization. -/
theorem C4_detect_component_state_amended_witness :
    (detect_component_state envLibfooCE projLibCE).status = SubtreeStatus.modified ∧
    (detect_component_state envLibfooCE projLibCE).has_local_changes = true :=
  ((C4_detect_component_state_amended envLibfooCE projLibCE).2.1 (by decide)).mpr
    (by decide)

/-- C5: an all-components status query returns exactly one state per
    manifest component, in manifest order; per-status counts sum to the
    component count; a component whose detection raises is recorded with
    status ERROR (zeroed counters) instead of propagating, and detection
    results are passed through unchanged for the others. -/
theorem C5_get_all_component_status_total (detect : Project → Option SubtreeState)
    (manifest : Manifest) :
    (get_all_component_status detect manifest).length = manifest.projects.length ∧
    (countStatus (get_all_component_status detect manifest) .up_to_date +
      countStatus (get_all_component_status detect manifest) .ahead +
      countStatus (get_all_component_status detect manifest) .behind +
      countStatus (get_all_component_status detect manifest) .diverged +
      countStatus (get_all_component_status detect manifest) .modified +
      countStatus (get_all_component_status detect manifest) .uninitialized +
      countStatus (get_all_component_status detect manifest) .error =
      manifest.projects.length) ∧
    (∀ (i : Nat) (p : Project), manifest.projects.get? i = some p →
      ((detect p = none →
         (get_all_component_status detect manifest).get? i = some (errorState p)) ∧
       (∀ s0, detect p = some s0 →
         (get_all_component_status detect manifest).get? i = some s0))) := by
  have hmap := statusLoop_eq_map detect manifest.projects
  have hlen : (get_all_component_status detect manifest).length =
      manifest.projects.length := by
    simp [get_all_component_status, hmap]
  refine ⟨hlen, ?_, ?_⟩
  · rw [countStatus_total (get_all_component_status detect manifest)]
    exact hlen
  · intro i p hp
    rw [List.get?_eq_getElem?] at hp
    constructor
    · intro hd
      simp [get_all_component_status, hmap, List.getElem?_map]
      exact ⟨p, hp, by simp [componentState, hd]⟩
    · intro s0 hd
      simp [get_all_component_status, hmap, List.getElem?_map]
      exact ⟨p, hp, by simp [componentState, hd]⟩

/-- C5 witness: a raising detector yields the ERROR state for the
    component. -/
theorem C5_get_all_component_status_total_witness :
    (get_all_component_status detectRaisesCE manifestOkCE).get? 0 =
      some (errorState projLibCE) :=
  ((C5_get_all_component_status_total detectRaisesCE manifestOkCE).2.2 0 projLibCE
    (by decide)).1 rfl

/-- C6: for a component list `pre ++ [pfail] ++ post` where every
    component of `pre` syncs cleanly and `pfail`'s sync fails: with
    `continue_on_error=False` the batch aborts (an error propagates, so
    no result map is returned at all) and exactly `pre ++ [pfail]` were
    attempted — the components after the failure are never attempted;
    with `continue_on_error=True` every component is attempted, the
    returned map has one entry per component in manifest order, and the
    failing component's recorded result is a failure. -/
theorem C6_sync_all_components_batch (sync : Project → SyncOutcome)
    (pre post : List Project) (pfail : Project) (clean force : Bool)
    (hguard : force = true ∨ clean = true)
    (hpre : ∀ p ∈ pre, syncFails sync p = false)
    (hfail : syncFails sync pfail = true) :
    (∃ e, (sync_all_components clean force false sync (pre ++ pfail :: post)).1 =
          Except.error e ∧
        (sync_all_components clean force false sync (pre ++ pfail :: post)).2 =
          pre ++ [pfail]) ∧
    (sync_all_components clean force true sync (pre ++ pfail :: post)).1 =
      Except.ok ((pre ++ pfail :: post).map (fun p => (p.path, effectiveResult sync p))) ∧
    (sync_all_components clean force true sync (pre ++ pfail :: post)).2 =
      pre ++ pfail :: post ∧
    (effectiveResult sync pfail).success = false := by
  have hg : (!force && !clean) = false := by
    rcases hguard with h | h <;> simp [h]
  obtain ⟨e, he⟩ := syncLoop_abort sync pfail hfail pre post hpre
  refine ⟨⟨e, ?_, ?_⟩, ?_, ?_, ?_⟩
  · simp [sync_all_components, hg, he]
  · simp [sync_all_components, hg, he]
  · simp [sync_all_components, hg, syncLoop_co_true]
  · simp [sync_all_components, hg, syncLoop_co_true]
  · cases hsp : sync pfail with
    | returns r =>
      have hr : r.success = false := by
        simp [syncFails, hsp] at hfail
        exact hfail
      simp [effectiveResult, hsp, hr]
    | raises m => simp [effectiveResult, hsp, syntheticFailure]

/-- C6 witness: a three-component batch whose middle component raises. -/
theorem C6_sync_all_components_batch_witness :
    (sync_all_components true false false syncOracleCE
        [projGoodCE, projBadCE, projAfterCE]).2 = [projGoodCE, projBadCE] ∧
    (sync_all_components true false true syncOracleCE
        [projGoodCE, projBadCE, projAfterCE]).2 =
      [projGoodCE, projBadCE, projAfterCE] ∧
    (effectiveResult syncOracleCE projBadCE).success = false := by
  have h := C6_sync_all_components_batch syncOracleCE [projGoodCE] [projAfterCE]
    projBadCE true false (Or.inr rfl) (by decide) (by decide)
  obtain ⟨⟨e, _, he2⟩, _, h4, h5⟩ := h
  exact ⟨he2, h4, h5⟩

/-- C7: any directive whose source or destination contains a `".."`
    segment, or is absolute, or whose destination resolved against the
    workspace root escapes that root, is rejected by
    `validate_path_security`, and the mutation trace of processing that
    directive (copy or link) is empty — no file is created, copied or
    linked for it. -/
theorem C7_validate_path_security_gate (src dest : String)
    (root projdir : List (List Char))
    (h : dotDotSeg ∈ pathSegs src ∨ dotDotSeg ∈ pathSegs dest ∨
         startsWithChar src '/' = true ∨ startsWithChar dest '/' = true ∨
         escapesRoot root dest = true) :
    (∃ e, validate_path_security src dest root projdir = Except.error e) ∧
    (∀ (oracle : List (List Char) → List (List Char) → CopyOutcome) (name : String),
        (processCopyfile oracle name root projdir (Copyfile.mk src dest)).2 = [] ∧
        (processCopyfile oracle name root projdir (Copyfile.mk src dest)).1.success
          = false) ∧
    (∀ (oracle : List (List Char) → List (List Char) → LinkOutcome) (name : String),
        (processLinkfile oracle name root projdir (Linkfile.mk src dest)).2 = [] ∧
        (processLinkfile oracle name root projdir (Linkfile.mk src dest)).1.success
          = false) := by
  have herr : ∃ e, validate_path_security src dest root projdir = Except.error e := by
    by_cases h1 : (strHasDotDot src || strHasDotDot dest) = true
    · exact ⟨.dotDot src dest, by simp [validate_path_security, h1]⟩
    · by_cases h2 : (startsWithChar src '/' || startsWithChar dest '/') = true
      · exact ⟨.absolute src dest, by simp [validate_path_security, h1, h2]⟩
      · by_cases h3 : escapesRoot root dest = true
        · exact ⟨.escape dest, by simp [validate_path_security, h1, h2, h3]⟩
        · exfalso
          simp only [Bool.or_eq_true, not_or, Bool.not_eq_true] at h1 h2
          rcases h with hs | hd | ha | hb | he
          · have := dotdot_seg_imp_substr src.data hs
            rw [show strHasDotDot src = hasDotDotChars src.data from rfl] at h1
            exact absurd this (by simp [h1.1])
          · have := dotdot_seg_imp_substr dest.data hd
            rw [show strHasDotDot dest = hasDotDotChars dest.data from rfl] at h1
            exact absurd this (by simp [h1.2])
          · exact absurd ha (by simp [h2.1])
          · exact absurd hb (by simp [h2.2])
          · exact absurd he h3
  obtain ⟨e, he⟩ := herr
  refine ⟨⟨e, he⟩, ?_, ?_⟩
  · intro oracle name
    constructor <;> simp [processCopyfile, he]
  · intro oracle name
    constructor <;> simp [processLinkfile, he]

/-- C7 witness: a directive whose destination contains a `".."` segment
    produces an empty mutation trace for both copy and link processing. -/
theorem C7_validate_path_security_gate_witness :
    (processCopyfile copyOracleCE compStr rootSegsCE projdirSegsCE cfDotDotCE).2 = [] ∧
    (processLinkfile linkOracleCE compStr rootSegsCE projdirSegsCE lfDotDotCE).2 = [] := by
  have h := C7_validate_path_security_gate cfDotDotCE.src cfDotDotCE.dest rootSegsCE
    projdirSegsCE (Or.inr (Or.inl (by decide)))
  exact ⟨(h.2.1 copyOracleCE compStr).1, (h.2.2 linkOracleCE compStr).1⟩

end Subrepo
